import Mathlib

/-!
Verification of the Modbus TCP slave driver (Python sources under `src/`).

The development shallowly embeds the parts of the code base that the
specification talks about:

* `core/memory.py`  — the `Memory` point store (value-level model `Memory`,
  plus an object-identity model `HeapMemory` that makes Python reference
  aliasing explicit);
* `core/modbus_server.py` — the traced pymodbus data blocks and the engine's
  block initialisation (`SeqBlock`, `tracedSeqSetValues`, `tracedBitSetValues`,
  `EngineState`), together with the pymodbus 2.5.x `ModbusSlaveContext`
  addressing semantics (`contextSetValues`, `zero_mode = False` so the
  context adds 1 to the request address before delegating to the block);
* `api/server_api.py` — the value validation / normalisation done by the
  `POST /points` handler (`setPoint`);
* `manager/modbus_driver_manager.py` — `start_driver` (`startDriver`) and the
  watchdog loop (`watchdogBody`, `watchdogRun`).

Python `datetime` instants are modelled as natural numbers ordered by `<`;
Python `int` is Lean `Int`; a raised exception is an `Except.error` paired
with the (unchanged) state at the point of the raise.
-/

namespace ModbusDriver

/-- Decidable equality for `Except`, used to evaluate the models on
concrete inputs. -/
instance {ε α : Type} [DecidableEq ε] [DecidableEq α] :
    DecidableEq (Except ε α)
  | .ok a, .ok b => decidable_of_iff (a = b) (by simp)
  | .ok _, .error _ => isFalse (by simp)
  | .error _, .ok _ => isFalse (by simp)
  | .error a, .error b => decidable_of_iff (a = b) (by simp)

/-- Model of `PointQuality` from `core/memory.py`: quality state of a point. -/
inductive PointQuality
  | OK
  | BAD
  | STALE
  | UNKNOWN
deriving DecidableEq, Repr

/-- One point of `Memory`: the dict `{"value": .., "quality": .., "timestamp": ..}`
from `core/memory.py` (`make_block`). Timestamps are abstract instants. -/
structure Point where
  value : Int
  quality : PointQuality
  timestamp : Nat
deriving DecidableEq, Repr

/-- A memory area: a Python dict from (integer) address to point, modelled as
an association list in insertion order. -/
abbrev Table := List (Int × Point)

/-- Python `dict.get` / `in` on an association list: first binding wins. -/
def tlookup : Table → Int → Option Point
  | [], _ => none
  | (k, p) :: rest, a => if k = a then some p else tlookup rest a

/-- Python `str.upper()` (agrees with it on the ASCII area names used here). -/
def pyUpper (s : String) : String :=
  ⟨s.data.map Char.toUpper⟩

/-- Model of `make_block(count)` from `Memory.__init__`: addresses `0..count-1`, each
with the default value, quality `UNKNOWN`, and the construction instant. -/
def makeBlock (count : Nat) (defaultValue : Int) (t0 : Nat) : Table :=
  (List.range count).map fun a => ((a : Int), ⟨defaultValue, .UNKNOWN, t0⟩)

/-- The four area dicts of `Memory` (`core/memory.py`). -/
structure Memory where
  holding : Table
  coils : Table
  discreteInputs : Table
  inputRegisters : Table
deriving DecidableEq, Repr

/-- Model of `Memory.__init__(hr_count, co_count, di_count, ir_count, default_value)`. -/
def Memory.init (hrCount coCount diCount irCount : Nat) (defaultValue : Int)
    (t0 : Nat) : Memory where
  holding := makeBlock hrCount defaultValue t0
  coils := makeBlock coCount defaultValue t0
  discreteInputs := makeBlock diCount defaultValue t0
  inputRegisters := makeBlock irCount defaultValue t0

/-- The exceptions `core/memory.py` raises: `ValueError` (invalid area),
`KeyError` (address not in the table), `PermissionError` (read-only area). -/
inductive MemError
  | valueError
  | keyError
  | permissionError
deriving DecidableEq, Repr

/-- Model of `Memory._get_table`: uppercase the area name and select the dict;
any other area raises `ValueError`. -/
def Memory.getTable (m : Memory) (area : String) : Except MemError Table :=
  let a := pyUpper area
  if a = "HR" then .ok m.holding
  else if a = "CO" then .ok m.coils
  else if a = "DI" then .ok m.discreteInputs
  else if a = "IR" then .ok m.inputRegisters
  else .error .valueError

/-- Write-back of the table chosen by `_get_table` (Python mutates the selected
dict in place through the alias `table`; here the updated table is stored back
into the same field the dispatch selected). -/
def Memory.setTable (m : Memory) (area : String) (t : Table) : Memory :=
  let a := pyUpper area
  if a = "HR" then { m with holding := t }
  else if a = "CO" then { m with coils := t }
  else if a = "DI" then { m with discreteInputs := t }
  else if a = "IR" then { m with inputRegisters := t }
  else m

/-- Model of `Memory.read_point(address, area)`: `table.get(address)` (`None` when the
address is absent); `ValueError` propagates from `_get_table`. -/
def Memory.readPoint (m : Memory) (address : Int) (area : String) :
    Except MemError (Option Point) :=
  (m.getTable area).map fun t => tlookup t address

/-- The in-place update `table[address] = {value, OK, now}` performed by
`Memory.write_point` on an existing key: the binding of `address` is replaced,
all other bindings are untouched. -/
def tableWrite : Table → Int → Int → Nat → Table
  | [], _, _, _ => []
  | (k, p) :: rest, address, value, now =>
    (if k = address then (k, ⟨value, .OK, now⟩) else (k, p))
      :: tableWrite rest address value now

/-- Model of `Memory.write_point(address, value, area)`: raises `PermissionError` when
the uppercased area is `DI` or `IR` (before anything else), `ValueError` for an
unknown area, `KeyError` for an absent address; otherwise stores the raw value,
sets quality `OK` and the timestamp. The returned memory is the state after the
call (unchanged whenever an exception is raised, as in the source, where the
raise happens before any mutation). -/
def Memory.writePoint (m : Memory) (address : Int) (value : Int) (area : String)
    (now : Nat) : Except MemError Unit × Memory :=
  if pyUpper area = "DI" ∨ pyUpper area = "IR" then (.error .permissionError, m)
  else
    match m.getTable area with
    | .error e => (.error e, m)
    | .ok t =>
      if (tlookup t address).isSome then
        (.ok (), m.setTable area (tableWrite t address value now))
      else (.error .keyError, m)

/-- The in-place update of quality and timestamp done by `Memory.set_quality`:
the binding of `address` keeps its value, all other bindings are untouched. -/
def tableSetQuality : Table → Int → PointQuality → Nat → Table
  | [], _, _, _ => []
  | (k, p) :: rest, address, q, now =>
    (if k = address then (k, { p with quality := q, timestamp := now }) else (k, p))
      :: tableSetQuality rest address q now

/-- Model of `Memory.set_quality(address, quality, area)`: no-op when the address is
absent; `ValueError` for an unknown area. -/
def Memory.setQuality (m : Memory) (address : Int) (q : PointQuality)
    (area : String) (now : Nat) : Except MemError Unit × Memory :=
  match m.getTable area with
  | .error e => (.error e, m)
  | .ok t =>
    if (tlookup t address).isSome then
      (.ok (), m.setTable area (tableSetQuality t address q now))
    else (.ok (), m)

/-- Model of `Memory.all_points(area)`: `table.copy()` — at the value level, the table
itself (object identity is treated in the `HeapMemory` model below). -/
def Memory.allPoints (m : Memory) (area : String) : Except MemError Table :=
  m.getTable area

/-- Model of `Memory.changed_points(since, area)`: the sub-dict of entries whose
`timestamp > since` (strict comparison). -/
def Memory.changedPoints (m : Memory) (since : Nat) (area : String) :
    Except MemError Table :=
  (m.getTable area).map fun t => t.filter fun e => since < e.2.timestamp

/-!
### Protocol engine model — `core/modbus_server.py` plus the pymodbus 2.5.x
datastore it builds on.

`ModbusSequentialDataBlock(address, values)` keeps a base `address` and a list
`values`; its `setValues(address, values)` performs the Python slice
assignment `self.values[start : start + len(values)] = values` with
`start = address - self.address`.  `ModbusSlaveContext` is created without
`zero_mode`, so `zero_mode = False` and `setValues(fx, address, values)` first
increments the address by one, then dispatches on the function code
(`1/5/15 → coils, 2 → discrete inputs, 3/6/16 → holding, 4 → input`).
-/

/-- State of a `ModbusSequentialDataBlock`: base address and value list. -/
structure SeqBlock where
  address : Int
  values : List Int
deriving DecidableEq, Repr

/-- Normalisation of one Python slice endpoint for a list of length `len`:
negative indices count from the end (clamped at 0), non-negative ones are
clamped at `len`. -/
def pySliceIndex (len : Nat) (i : Int) : Nat :=
  if i < 0 then ((len : Int) + i).toNat else min i.toNat len

/-- Python slice assignment `l[a:b] = vals`: the (possibly empty) slice is
removed and `vals` is inserted in its place. -/
def pySliceAssign (l : List Int) (a b : Int) (vals : List Int) : List Int :=
  let lo := pySliceIndex l.length a
  let hi := pySliceIndex l.length b
  l.take lo ++ vals ++ l.drop (max lo hi)

/-- Model of `ModbusSequentialDataBlock.setValues(address, values)`. -/
def SeqBlock.setValuesRaw (b : SeqBlock) (address : Int) (vals : List Int) :
    SeqBlock :=
  let start := address - b.address
  { b with values := pySliceAssign b.values start (start + vals.length) vals }

/-- The mirror loop of `TracedSeqBlock.setValues` / `TracedBitBlock.setValues`:
`for i, v in enumerate(values): try write_point(address + i - 1, v, area)
except Exception: pass` — a failed mirror write is logged and skipped, leaving
the memory untouched for that element. -/
def mirrorWrites : Memory → String → Int → List Int → Nat → Memory
  | m, _, _, [], _ => m
  | m, area, address, v :: rest, now =>
    let m' := (m.writePoint (address - 1) v area now).2
    mirrorWrites m' area (address + 1) rest now

/-- Model of `TracedSeqBlock.setValues` (areas `HR`/`IR`): writes to `IR` are silently
ignored; otherwise the values are mirrored into `Memory` and then the block is
updated. Returns the new block and memory. -/
def tracedSeqSetValues (area : String) (b : SeqBlock) (m : Memory)
    (address : Int) (vals : List Int) (now : Nat) : SeqBlock × Memory :=
  if area = "IR" then (b, m)
  else
    let m' := mirrorWrites m area address vals now
    (b.setValuesRaw address vals, m')

/-- The coil normalisation `1 if int(v) else 0` in `TracedBitBlock.setValues`. -/
def pyBool01 (v : Int) : Int :=
  if v = 0 then 0 else 1

/-- Model of `TracedBitBlock.setValues` (areas `CO`/`DI`): writes to `DI` are silently
ignored; otherwise values are normalised to 0/1, mirrored into `Memory`, and
the block is updated with the normalised values. -/
def tracedBitSetValues (area : String) (b : SeqBlock) (m : Memory)
    (address : Int) (vals : List Int) (now : Nat) : SeqBlock × Memory :=
  if area = "DI" then (b, m)
  else
    let norm := vals.map pyBool01
    let m' := mirrorWrites m area address norm now
    (b.setValuesRaw address norm, m')

/-- The engine's four traced data blocks plus the shared `Memory`
(`ModbusServer.__init__` wires `parent_server._memory` into each block). -/
structure EngineState where
  hrBlock : SeqBlock
  irBlock : SeqBlock
  coBlock : SeqBlock
  diBlock : SeqBlock
  memory : Memory
deriving DecidableEq, Repr

/-- Block construction in `ModbusServer.__init__`: the value list is read from
the memory area in address order, an empty list is padded to `[0]`
(`hr_values or [0]`), and the block base address is 1. -/
def initBlock (t : Table) : SeqBlock :=
  let vs := t.map fun e => e.2.value
  ⟨1, if vs.isEmpty then [0] else vs⟩

/-- Model of `ModbusServer.__init__`: build the four traced blocks from the shared
memory. -/
def EngineState.init (m : Memory) : EngineState where
  hrBlock := initBlock m.holding
  irBlock := initBlock m.inputRegisters
  coBlock := initBlock m.coils
  diBlock := initBlock m.discreteInputs
  memory := m

/-- Model of `ModbusSlaveContext.setValues(fx, address, values)` with
`zero_mode = False`: add 1 to the address, then dispatch on the function code
to the traced block of the corresponding area. -/
def contextSetValues (st : EngineState) (fc : Nat) (address : Int)
    (vals : List Int) (now : Nat) : EngineState :=
  let a := address + 1
  if fc = 3 ∨ fc = 6 ∨ fc = 16 then
    let r := tracedSeqSetValues "HR" st.hrBlock st.memory a vals now
    { st with hrBlock := r.1, memory := r.2 }
  else if fc = 4 then
    let r := tracedSeqSetValues "IR" st.irBlock st.memory a vals now
    { st with irBlock := r.1, memory := r.2 }
  else if fc = 1 ∨ fc = 5 ∨ fc = 15 then
    let r := tracedBitSetValues "CO" st.coBlock st.memory a vals now
    { st with coBlock := r.1, memory := r.2 }
  else if fc = 2 then
    let r := tracedBitSetValues "DI" st.diBlock st.memory a vals now
    { st with diBlock := r.1, memory := r.2 }
  else st

/-- Outcome reported by the `POST /points` handler. -/
inductive ApiResult
  | ok
  | outOfRange
  | notRunning
deriving DecidableEq, Repr

/-- Model of `set_point` from `api/server_api.py` (the `POST /points` handler): reject
when the engine is not running; uppercase the area; reject values outside
`[-32768, 65535]` with HTTP 400; map negative values to `65536 + value`; then
write through the slave context (function code 3 for `HR`, 1 for `CO`; other
areas skip the context write and still report success). -/
def setPoint (running : Bool) (st : EngineState) (area : String)
    (address : Int) (value : Int) (now : Nat) : ApiResult × EngineState :=
  if ¬running then (.notRunning, st)
  else
    let areaU := pyUpper area
    if value < -32768 ∨ value > 65535 then (.outOfRange, st)
    else
      let v := if value < 0 then 65536 + value else value
      if areaU = "HR" then (.ok, contextSetValues st 3 address [v] now)
      else if areaU = "CO" then (.ok, contextSetValues st 1 address [v] now)
      else (.ok, st)

/-!
### Lifecycle manager model — `manager/modbus_driver_manager.py`.
-/

/-- The manager's `stats` dictionary. -/
structure Stats where
  starts : Nat
  stops : Nat
  errors : Nat
deriving DecidableEq, Repr

/-- The configuration values `start_driver` reads from `settings.ini`. -/
structure StartConfig where
  hrCount : Nat
  coCount : Nat
  diCount : Nat
  irCount : Nat
  defaultValue : Int
  watchdogInterval : Nat
  watchdogEnabled : Bool
  watchdogMaxRetries : Nat
deriving DecidableEq, Repr

/-- Outcome of the up-to-3-second readiness poll in `start_driver`: the engine
thread reported a `_startup_error`, or the poll timed out with the engine still
not running, or the engine came up. -/
inductive StartOutcome
  | startupError
  | timedOut
  | ok
deriving DecidableEq, Repr

/-- Externally visible actions `start_driver` performs on the engine. -/
inductive DriverEvent
  | engineShutdown
deriving DecidableEq, Repr

/-- Manager state (`ModbusDriverManager`): `server` is `none` when the engine
reference was dropped, otherwise `some running?`; plus the point store, the
stats counters, and the watchdog bookkeeping. -/
structure DriverManager where
  server : Option Bool
  memory : Option Memory
  stats : Stats
  startTime : Option Nat
  manualStop : Bool
  watchdogActive : Bool
  watchdogRetryCount : Nat
deriving DecidableEq, Repr

/-- A freshly constructed `ModbusDriverManager`. -/
def DriverManager.initial : DriverManager where
  server := none
  memory := none
  stats := ⟨0, 0, 0⟩
  startTime := none
  manualStop := false
  watchdogActive := false
  watchdogRetryCount := 0

/-- Model of `_start_watchdog`: a no-op when already active, otherwise reset the retry
count and arm. -/
def startWatchdog (m : DriverManager) : DriverManager :=
  if m.watchdogActive then m
  else { m with watchdogRetryCount := 0, watchdogActive := true }

/-- The success tail of `start_driver`: record `start_time`, mark the engine
running, increment `starts`, and arm the watchdog when enabled. -/
def startSuccess (m1 : DriverManager) (cfg : StartConfig) (now : Nat) :
    DriverManager :=
  let m2 := { m1 with server := some true, startTime := some now,
                      stats := { m1.stats with starts := m1.stats.starts + 1 } }
  if cfg.watchdogEnabled then startWatchdog m2 else m2

/-- Model of `start_driver`: return false at once if the engine exists and is running;
otherwise rebuild the `Memory` from configuration, clear `manual_stop`, spawn
the engine and poll for readiness (`outcome`). On `startup_error` or timeout:
increment `errors`, shut the engine down, drop the reference, return false
(`starts` untouched). On success: record `start_time`, increment `starts`, arm
the watchdog when enabled, return true. `now` is the success-path start time,
`t0` the construction instant of the fresh memory; the event list records the
engine shutdowns attempted. -/
def startDriver (m : DriverManager) (cfg : StartConfig) (outcome : StartOutcome)
    (now t0 : Nat) : Bool × DriverManager × List DriverEvent :=
  if m.server = some true then (false, m, [])
  else
    let mem := Memory.init cfg.hrCount cfg.coCount cfg.diCount cfg.irCount
      cfg.defaultValue t0
    let m1 := { m with memory := some mem, manualStop := false }
    match outcome with
    | .startupError =>
      (false,
        { m1 with stats := { m1.stats with errors := m1.stats.errors + 1 },
                  server := none },
        [.engineShutdown])
    | .timedOut =>
      (false,
        { m1 with stats := { m1.stats with errors := m1.stats.errors + 1 },
                  server := none },
        [.engineShutdown])
    | .ok => (true, startSuccess m1 cfg now, [])

/-!
### Watchdog loop model — `ModbusDriverManager._watchdog_loop`.

Each iteration sleeps, then inspects the manager state under the lock; the
values it reads there (`server.is_running()`, `manual_stop`) form one
`WatchdogObs`.  The loop body either resets the retry count, idles, disarms
and breaks, or increments the retry count and issues `restart_driver()` after
releasing the lock.
-/

/-- What one watchdog iteration observes under the manager lock. -/
structure WatchdogObs where
  driverRunning : Bool
  manualStop : Bool
deriving DecidableEq, Repr

/-- One iteration of `_watchdog_loop` (given `max_retries` and the current
retry count): returns the new retry count, whether the loop stays armed, and
whether a `restart_driver()` call is issued after the lock is released. -/
def watchdogBody (maxRetries retryCount : Nat) (obs : WatchdogObs) :
    Nat × Bool × Bool :=
  if obs.driverRunning then (0, true, false)
  else if obs.manualStop then (retryCount, true, false)
  else if maxRetries > 0 ∧ maxRetries ≤ retryCount then (retryCount, false, false)
  else (retryCount + 1, true, true)

/-- The `while self._watchdog_active` loop run against a finite trace of
observations: returns the list of restart flags of the iterations that
actually execute, and whether the watchdog is still armed afterwards. The
loop breaks (consuming no further observations) as soon as an iteration
disarms it. -/
def watchdogRun (maxRetries : Nat) : Nat → List WatchdogObs → List Bool × Bool
  | _, [] => ([], true)
  | rc, obs :: rest =>
    match watchdogBody maxRetries rc obs with
    | (rc', true, restart) =>
      let r := watchdogRun maxRetries rc' rest
      (restart :: r.1, r.2)
    | (_, false, restart) => ([restart], false)

/-!
### Object-identity model of `core/memory.py`.

The value-level `Memory` above cannot express Python aliasing, so this second
model of the same source makes the object graph explicit: each point dict is a
heap object named by a `Ref`, and the area dicts map addresses to references.
`read_point` returns `table.get(address)` — the stored reference itself — and
`all_points` returns `table.copy()` — a fresh dict holding the same
references.  Mutating a point dict through a reference
(`point["value"] = v`) is a heap update visible through every alias.
-/

/-- A Python object identity (the id of one point dict). -/
abbrev Ref := Nat

/-- The four area dicts of `Memory`, now mapping addresses to references into
the heap of point dicts. -/
structure HeapMemory where
  heap : Ref → Point
  holdingRefs : List (Int × Ref)
  coilsRefs : List (Int × Ref)
  diRefs : List (Int × Ref)
  irRefs : List (Int × Ref)

/-- Python `dict.get` on an address → reference dict. -/
def rlookup : List (Int × Ref) → Int → Option Ref
  | [], _ => none
  | (k, r) :: rest, a => if k = a then some r else rlookup rest a

/-- Model of `Memory._get_table` in the object-identity model. -/
def HeapMemory.getRefTable (m : HeapMemory) (area : String) :
    Except MemError (List (Int × Ref)) :=
  let a := pyUpper area
  if a = "HR" then .ok m.holdingRefs
  else if a = "CO" then .ok m.coilsRefs
  else if a = "DI" then .ok m.diRefs
  else if a = "IR" then .ok m.irRefs
  else .error .valueError

/-- Model of `Memory.read_point(address, area)`: returns `table.get(address)`, i.e. the
reference stored in the table — not a copy of the point. -/
def HeapMemory.readPointRef (m : HeapMemory) (address : Int) (area : String) :
    Except MemError (Option Ref) :=
  (m.getRefTable area).map fun t => rlookup t address

/-- Model of `Memory.all_points(area)`: `table.copy()` — a fresh dict (a new list value)
whose entries are the same address → reference pairs, so the contained point
objects are shared with the store. -/
def HeapMemory.allPointsRefs (m : HeapMemory) (area : String) :
    Except MemError (List (Int × Ref)) :=
  (m.getRefTable area).map fun t => t

/-- A caller-side mutation `point["value"] = v` on the dict named by `r`:
a heap update, visible through every alias of `r`. -/
def HeapMemory.setValueViaRef (m : HeapMemory) (r : Ref) (v : Int) : HeapMemory :=
  { m with heap := fun x => if x = r then { m.heap x with value := v } else m.heap x }

/-- The point currently stored at an address of an area, read through the
store's own table (what a later `read_point` observes). -/
def HeapMemory.storedPoint (m : HeapMemory) (address : Int) (area : String) :
    Except MemError (Option Point) :=
  (m.getRefTable area).map fun t => (rlookup t address).map m.heap

/-- Model of `Memory.__init__` in the object-identity model: `make_block` creates one
fresh dict per address; references are chosen injectively (address `a` of the
`i`-th area gets reference `4 * a + i`), matching Python's guarantee that
distinct dict objects have distinct identities. -/
def HeapMemory.init (hrCount coCount diCount irCount : Nat)
    (defaultValue : Int) (t0 : Nat) : HeapMemory where
  heap := fun _ => ⟨defaultValue, .UNKNOWN, t0⟩
  holdingRefs := (List.range hrCount).map fun (a : Nat) => (Int.ofNat a, 4 * a)
  coilsRefs := (List.range coCount).map fun (a : Nat) => (Int.ofNat a, 4 * a + 1)
  diRefs := (List.range diCount).map fun (a : Nat) => (Int.ofNat a, 4 * a + 2)
  irRefs := (List.range irCount).map fun (a : Nat) => (Int.ofNat a, 4 * a + 3)

/-!
### Helper lemmas.
-/

/-- Looking up the written address after `tableWrite`: present keys get the
fresh point, absent keys stay absent. -/
theorem tlookup_tableWrite (t : Table) (a v : Int) (now : Nat) :
    tlookup (tableWrite t a v now) a
      = (tlookup t a).map fun _ => (⟨v, .OK, now⟩ : Point) := by
  induction t with
  | nil => rfl
  | cons e rest ih =>
    obtain ⟨k, p⟩ := e
    rw [tableWrite]
    by_cases hk : k = a
    · rw [if_pos hk, tlookup, tlookup, if_pos hk, if_pos hk]
      rfl
    · rw [if_neg hk, tlookup, tlookup, if_neg hk, if_neg hk, ih]

/-- A key absent from a table is absent from any filtered version of it. -/
theorem tlookup_filter_none (t : Table) (P : Int × Point → Bool) (a : Int)
    (h : tlookup t a = none) : tlookup (t.filter P) a = none := by
  induction t with
  | nil => rfl
  | cons e rest ih =>
    obtain ⟨k, p⟩ := e
    by_cases hk : k = a
    · subst hk
      simp [tlookup] at h
    · rw [tlookup] at h
      rw [if_neg hk] at h
      rw [List.filter_cons]
      by_cases hp : P (k, p)
      · simp only [hp, if_pos]
        rw [tlookup, if_neg hk]
        exact ih h
      · simp only [hp, Bool.false_eq_true, if_neg, not_false_iff]
        exact ih h

/-- A key absent from the key list has no binding. -/
theorem tlookup_eq_none_of_not_mem_keys (t : Table) (a : Int)
    (h : ¬ a ∈ t.map Prod.fst) : tlookup t a = none := by
  induction t with
  | nil => rfl
  | cons e rest ih =>
    obtain ⟨k, p⟩ := e
    simp only [List.map_cons, List.mem_cons, not_or] at h
    rw [tlookup, if_neg fun hk => h.1 hk.symm]
    exact ih h.2

/-- Lookup in a filtered table, when the keys are distinct: the binding
survives exactly when it satisfies the predicate. -/
theorem tlookup_filter (t : Table) (P : Int × Point → Bool) (a : Int)
    (hnd : (t.map Prod.fst).Nodup) :
    tlookup (t.filter P) a
      = (tlookup t a).bind fun p => if P (a, p) then some p else none := by
  induction t with
  | nil => rfl
  | cons e rest ih =>
    obtain ⟨k, p⟩ := e
    simp only [List.map_cons, List.nodup_cons] at hnd
    by_cases hk : k = a
    · subst hk
      rw [List.filter_cons]
      by_cases hp : P (k, p)
      · simp only [hp, if_pos]
        simp [tlookup, hp]
      · simp only [hp, Bool.false_eq_true, if_neg, not_false_iff]
        rw [tlookup_filter_none rest P k
          (tlookup_eq_none_of_not_mem_keys rest k hnd.1)]
        simp [tlookup, hp]
    · rw [List.filter_cons]
      by_cases hp : P (k, p)
      · simp only [hp, if_pos]
        rw [tlookup, if_neg hk, tlookup, if_neg hk]
        exact ih hnd.2
      · simp only [hp, Bool.false_eq_true, if_neg, not_false_iff]
        rw [tlookup, if_neg hk]
        exact ih hnd.2

/-- Lemma: `_get_table` dispatch for an area whose uppercase form is `HR`. -/
theorem getTable_hr (m : Memory) (s : String) (hs : pyUpper s = "HR") :
    m.getTable s = .ok m.holding := by
  simp [Memory.getTable, hs]

/-- Lemma: `_get_table` write-back for an area whose uppercase form is `HR`. -/
theorem setTable_hr (m : Memory) (s : String) (t : Table)
    (hs : pyUpper s = "HR") : m.setTable s t = { m with holding := t } := by
  simp [Memory.setTable, hs]

/-- Lemma: `_get_table` dispatch for an area whose uppercase form is `CO`. -/
theorem getTable_co (m : Memory) (s : String) (hs : pyUpper s = "CO") :
    m.getTable s = .ok m.coils := by
  simp [Memory.getTable, hs]

/-- Lemma: `_get_table` raises `ValueError` for any other uppercase form. -/
theorem getTable_invalid (m : Memory) (s : String)
    (h1 : pyUpper s ≠ "HR") (h2 : pyUpper s ≠ "CO")
    (h3 : pyUpper s ≠ "DI") (h4 : pyUpper s ≠ "IR") :
    m.getTable s = .error .valueError := by
  simp [Memory.getTable, h1, h2, h3, h4]

/-- Lemma: `write_point` on an `HR`-named area reduces to a key check plus a raw
in-place update of the holding table. -/
theorem writePoint_hr (m : Memory) (addr v : Int) (now : Nat) (s : String)
    (hs : pyUpper s = "HR") :
    m.writePoint addr v s now
      = if (tlookup m.holding addr).isSome then
          (.ok (), { m with holding := tableWrite m.holding addr v now })
        else (.error .keyError, m) := by
  rw [Memory.writePoint, if_neg (by simp [hs]), getTable_hr m s hs]
  show (if (tlookup m.holding addr).isSome then
          ((Except.ok () : Except MemError Unit),
            m.setTable s (tableWrite m.holding addr v now))
        else (Except.error MemError.keyError, m))
      = if (tlookup m.holding addr).isSome then
          (Except.ok (), { m with holding := tableWrite m.holding addr v now })
        else (Except.error MemError.keyError, m)
  rw [setTable_hr m s _ hs]

/-- Lemma: `_get_table` dispatch depends only on the uppercased area name. -/
theorem getTable_congr (m : Memory) {s s2 : String}
    (h : pyUpper s = pyUpper s2) : m.getTable s = m.getTable s2 := by
  simp only [Memory.getTable, h]

/-- Lemma: `_get_table` write-back depends only on the uppercased area name. -/
theorem setTable_congr (m : Memory) (t : Table) {s s2 : String}
    (h : pyUpper s = pyUpper s2) : m.setTable s t = m.setTable s2 t := by
  simp only [Memory.setTable, h]

/-- Lemma: `read_point` depends only on the uppercased area name. -/
theorem readPoint_congr (m : Memory) (addr : Int) {s s2 : String}
    (h : pyUpper s = pyUpper s2) : m.readPoint addr s = m.readPoint addr s2 := by
  simp only [Memory.readPoint, getTable_congr m h]

/-- Lemma: `write_point` depends only on the uppercased area name. -/
theorem writePoint_congr (m : Memory) (addr v : Int) (now : Nat) {s s2 : String}
    (h : pyUpper s = pyUpper s2) :
    m.writePoint addr v s now = m.writePoint addr v s2 now := by
  simp only [Memory.writePoint, Memory.getTable, Memory.setTable, h]

/-- Lemma: `set_quality` depends only on the uppercased area name. -/
theorem setQuality_congr (m : Memory) (addr : Int) (q : PointQuality)
    (now : Nat) {s s2 : String} (h : pyUpper s = pyUpper s2) :
    m.setQuality addr q s now = m.setQuality addr q s2 now := by
  simp only [Memory.setQuality, Memory.getTable, Memory.setTable, h]

/-- Lemma: `all_points` depends only on the uppercased area name. -/
theorem allPoints_congr (m : Memory) {s s2 : String}
    (h : pyUpper s = pyUpper s2) : m.allPoints s = m.allPoints s2 := by
  simp only [Memory.allPoints, getTable_congr m h]

/-- Lemma: `changed_points` depends only on the uppercased area name. -/
theorem changedPoints_congr (m : Memory) (since : Nat) {s s2 : String}
    (h : pyUpper s = pyUpper s2) :
    m.changedPoints since s = m.changedPoints since s2 := by
  simp only [Memory.changedPoints, getTable_congr m h]

/-- Lemma: `setPoint` in the valid-range `HR` case reduces to a single context write
with function code 3 and the normalised value. -/
theorem setPoint_hr_reduce (st : EngineState) (addr v : Int) (now : Nat)
    (hrange : ¬ (v < -32768 ∨ v > 65535)) :
    setPoint true st "HR" addr v now
      = (.ok, contextSetValues st 3 addr [if v < 0 then 65536 + v else v] now) := by
  rw [setPoint, if_neg (fun hc => hc rfl)]
  show (if v < -32768 ∨ v > 65535 then ((ApiResult.outOfRange, st)) else
    if pyUpper "HR" = "HR" then
      (ApiResult.ok, contextSetValues st 3 addr [if v < 0 then 65536 + v else v] now)
    else if pyUpper "HR" = "CO" then
      (ApiResult.ok, contextSetValues st 1 addr [if v < 0 then 65536 + v else v] now)
    else (ApiResult.ok, st)) = _
  rw [if_neg hrange, if_pos (by decide : pyUpper "HR" = "HR")]

/-- Lemma: `ModbusSlaveContext.setValues` with function code 3 goes to the traced
`HR` block at the incremented address. -/
theorem contextSetValues_hr (st : EngineState) (address : Int)
    (vals : List Int) (now : Nat) :
    contextSetValues st 3 address vals now
      = { st with
            hrBlock := (tracedSeqSetValues "HR" st.hrBlock st.memory (address + 1) vals now).1,
            memory := (tracedSeqSetValues "HR" st.hrBlock st.memory (address + 1) vals now).2 } := by
  rw [contextSetValues,
    if_pos (show (3 : Nat) = 3 ∨ (3 : Nat) = 6 ∨ (3 : Nat) = 16 from Or.inl rfl)]

/-- Lemma: `TracedSeqBlock.setValues` on `HR` mirrors into memory and updates the
block. -/
theorem tracedSeqSetValues_hr (b : SeqBlock) (m : Memory) (a : Int)
    (vals : List Int) (now : Nat) :
    tracedSeqSetValues "HR" b m a vals now
      = (b.setValuesRaw a vals, mirrorWrites m "HR" a vals now) := by
  rw [tracedSeqSetValues, if_neg (by decide)]

/-- The mirror loop on a single value is one `write_point` at `address - 1`. -/
theorem mirrorWrites_single (m : Memory) (area : String) (a v : Int)
    (now : Nat) :
    mirrorWrites m area a [v] now = (m.writePoint (a - 1) v area now).2 := rfl

/-- Lemma: `startWatchdog` does not touch the engine reference. -/
theorem startWatchdog_server (m : DriverManager) :
    (startWatchdog m).server = m.server := by
  rw [startWatchdog]
  split <;> rfl

/-- Lemma: `startWatchdog` does not touch the stats counters. -/
theorem startWatchdog_stats (m : DriverManager) :
    (startWatchdog m).stats = m.stats := by
  rw [startWatchdog]
  split <;> rfl

/-- After the success tail of `start_driver` the engine is running. -/
theorem startSuccess_server (m1 : DriverManager) (cfg : StartConfig)
    (now : Nat) : (startSuccess m1 cfg now).server = some true := by
  simp only [startSuccess]
  by_cases hw : cfg.watchdogEnabled
  · rw [if_pos hw, startWatchdog_server]
  · rw [if_neg hw]

/-- The success tail of `start_driver` increments `starts` by one. -/
theorem startSuccess_starts (m1 : DriverManager) (cfg : StartConfig)
    (now : Nat) :
    (startSuccess m1 cfg now).stats.starts = m1.stats.starts + 1 := by
  simp only [startSuccess]
  by_cases hw : cfg.watchdogEnabled
  · rw [if_pos hw, startWatchdog_stats]
  · rw [if_neg hw]

/-!
### Claim theorems.
-/

/-- Claim C1 is false on the code: `Memory.write_point` with area `HR` applies
no normalization and no range check. At a one-register store, writing the raw
value `-1` succeeds and stores `-1` itself (not `-1 + 65536 = 65535`), and
writing `70000` (outside `[-32768, 65535]`) is not rejected and stores
`70000`; so the stored value is not always in `[0, 65535]`. -/
theorem C1_counterexample_writePoint_no_normalization :
    (Memory.writePoint (Memory.init 1 0 0 0 0 0) 0 (-1) "HR" 1).1 = .ok () ∧
    tlookup ((Memory.writePoint (Memory.init 1 0 0 0 0 0) 0 (-1) "HR" 1).2).holding 0
      = some ⟨-1, .OK, 1⟩ ∧
    ¬ (0 ≤ (-1 : Int)) ∧ ((-1 : Int) + 65536 = 65535) ∧
    (Memory.writePoint (Memory.init 1 0 0 0 0 0) 0 70000 "HR" 1).1 = .ok () ∧
    tlookup ((Memory.writePoint (Memory.init 1 0 0 0 0 0) 0 70000 "HR" 1).2).holding 0
      = some ⟨70000, .OK, 1⟩ := by
  decide

/-- Claim C1 (amended): `Memory.write_point` with area `HR` performs no value
normalization and no range check at all: for every integer raw value —
negative, in `[0, 65535]`, or above — the write at a present address succeeds
and stores the raw value unchanged, with quality `OK` and the new timestamp.
The `[-32768, -1] → value + 65536` reinterpretation and the rejection of
values outside `[-32768, 65535]` happen only at the control-API boundary
(`set_point` in `api/server_api.py`), not in `Memory.write_point`. -/
theorem C1_amended_writePoint_stores_raw_value (m : Memory) (addr v : Int)
    (now : Nat) (h : (tlookup m.holding addr).isSome = true) :
    (m.writePoint addr v "HR" now).1 = .ok () ∧
    tlookup ((m.writePoint addr v "HR" now).2).holding addr
      = some ⟨v, .OK, now⟩ := by
  rw [writePoint_hr m addr v now "HR" (by decide), if_pos h]
  refine ⟨rfl, ?_⟩
  show tlookup (tableWrite m.holding addr v now) addr = some ⟨v, .OK, now⟩
  rw [tlookup_tableWrite]
  cases hx : tlookup m.holding addr with
  | none => rw [hx] at h; cases h
  | some p => rfl

/-- Witness for C1 (amended), at a concrete store and the out-of-range raw
value 70000. -/
theorem C1_amended_witness :
    ((Memory.init 1 0 0 0 0 0).writePoint 0 70000 "HR" 3).1 = .ok () ∧
    tlookup (((Memory.init 1 0 0 0 0 0).writePoint 0 70000 "HR" 3).2).holding 0
      = some ⟨70000, .OK, 3⟩ :=
  C1_amended_writePoint_stores_raw_value (Memory.init 1 0 0 0 0 0) 0 70000 3
    (by decide)

/-- Claim C3: for every store state, address, value and instant, a write to an
area whose uppercase name is `DI` or `IR` fails with `PermissionError`, and
the resulting store is exactly the previous one — every point's value, quality
and timestamp are untouched (the raise happens before any mutation). -/
theorem C3_readonly_write_permission_error_state_unchanged (m : Memory)
    (addr v : Int) (area : String) (now : Nat)
    (h : pyUpper area = "DI" ∨ pyUpper area = "IR") :
    m.writePoint addr v area now = (.error .permissionError, m) := by
  rw [Memory.writePoint, if_pos h]

/-- Witness for C3 at a concrete store and the lowercase area name `di`. -/
theorem C3_witness :
    (Memory.init 1 0 1 0 0 0).writePoint 0 7 "di" 5
      = (.error .permissionError, Memory.init 1 0 1 0 0 0) :=
  C3_readonly_write_permission_error_state_unchanged (Memory.init 1 0 1 0 0 0)
    0 7 "di" 5 (Or.inl (by decide))

/-- Claim C4: `Memory.changed_points(since, area)` returns exactly the
bindings whose timestamp is strictly greater than `since`: looking up any
address in the result yields the stored point exactly when its timestamp
exceeds `since`, and `none` otherwise — in particular an address whose
timestamp equals `since` is not returned, and no address outside the area is
ever returned. (`hnd`: the area's addresses are distinct, as built by
`Memory.__init__` and preserved by every operation.) -/
theorem C4_changedPoints_exactly_strictly_newer (m : Memory) (since : Nat)
    (area : String) (t : Table) (addr : Int)
    (ht : m.getTable area = .ok t)
    (hnd : (t.map Prod.fst).Nodup) :
    ∃ l, m.changedPoints since area = .ok l ∧
      tlookup l addr
        = (tlookup t addr).bind fun p =>
            if since < p.timestamp then some p else none := by
  refine ⟨t.filter fun e => since < e.2.timestamp, ?_, ?_⟩
  · rw [Memory.changedPoints, ht]
    rfl
  · rw [tlookup_filter t _ addr hnd]
    cases tlookup t addr with
    | none => rfl
    | some p => simp

/-- Witness for C4 at a concrete two-register store in which address 0 was
written at instant 5 and address 1 still has its initial timestamp 0. -/
theorem C4_witness :
    ∃ l,
      (((Memory.init 2 0 0 0 0 0).writePoint 0 9 "HR" 5).2).changedPoints 0 "HR"
        = .ok l ∧
      tlookup l 0
        = (tlookup (((Memory.init 2 0 0 0 0 0).writePoint 0 9 "HR" 5).2).holding 0).bind
            fun p => if 0 < p.timestamp then some p else none :=
  C4_changedPoints_exactly_strictly_newer
    (((Memory.init 2 0 0 0 0 0).writePoint 0 9 "HR" 5).2) 0 "HR"
    (((Memory.init 2 0 0 0 0 0).writePoint 0 9 "HR" 5).2).holding 0
    (by decide) (by decide)

/-- Claim C2: for every engine state, present `HR` address and integer
`v ∈ [-32768, 65535]` written through the control API's `POST /points` path
(`set_point`), the call reports success and the value subsequently stored in
the point store at that very address is `v + 65536` when `v ∈ [-32768, -1]`
and `v` itself when `v ∈ [0, 65535]` — in particular the mirror address
arithmetic (context `address + 1`, block `address + i - 1`) lands on exactly
the address the caller named. -/
theorem C2_setPoint_hr_stores_normalized_value (st : EngineState)
    (addr v : Int) (now : Nat)
    (h : (tlookup st.memory.holding addr).isSome = true)
    (hlo : -32768 ≤ v) (hhi : v ≤ 65535) :
    (setPoint true st "HR" addr v now).1 = .ok ∧
    tlookup ((setPoint true st "HR" addr v now).2).memory.holding addr
      = some ⟨if v < 0 then v + 65536 else v, .OK, now⟩ := by
  have hrange : ¬ (v < -32768 ∨ v > 65535) := by omega
  rw [setPoint_hr_reduce st addr v now hrange]
  refine ⟨rfl, ?_⟩
  rw [contextSetValues_hr, tracedSeqSetValues_hr]
  show tlookup (mirrorWrites st.memory "HR" (addr + 1)
      [if v < 0 then 65536 + v else v] now).holding addr = _
  rw [mirrorWrites_single, Int.add_sub_cancel,
    writePoint_hr st.memory addr _ now "HR" (by decide), if_pos h]
  show tlookup (tableWrite st.memory.holding addr _ now) addr = _
  rw [tlookup_tableWrite]
  have hc : (65536 : Int) + v = v + 65536 := by ring
  rw [hc]
  cases hx : tlookup st.memory.holding addr with
  | none => rw [hx] at h; cases h
  | some p => rfl

/-- Witness for C2: in a one-register engine, `POST /points` with value `-1`
at `HR` address 0 reports success and stores `-1 + 65536 = 65535`. -/
theorem C2_witness :
    (setPoint true (EngineState.init (Memory.init 1 0 0 0 0 0)) "HR" 0 (-1) 7).1
      = .ok ∧
    tlookup ((setPoint true (EngineState.init (Memory.init 1 0 0 0 0 0)) "HR" 0 (-1) 7).2).memory.holding 0
      = some ⟨if (-1 : Int) < 0 then (-1) + 65536 else (-1), .OK, 7⟩ :=
  C2_setPoint_hr_stores_normalized_value
    (EngineState.init (Memory.init 1 0 0 0 0 0)) 0 (-1) 7
    (by decide) (by decide) (by decide)

/-- Claim C9: for every area string whose uppercased form is not one of `HR`,
`CO`, `DI`, `IR`, all five `Memory` operations raise `ValueError` (leaving the
store untouched where they return state), rather than returning `NotFound`, an
empty result, or silently doing nothing; and each operation depends on the
area string only through its uppercased form, so e.g. `"hr"` behaves exactly
like `"HR"`. -/
theorem C9_invalid_area_value_error_and_case_insensitivity (m : Memory)
    (s s2 : String) (addr v : Int) (q : PointQuality) (now since : Nat) :
    ((pyUpper s ≠ "HR" → pyUpper s ≠ "CO" → pyUpper s ≠ "DI" → pyUpper s ≠ "IR" →
        m.readPoint addr s = .error .valueError ∧
        m.writePoint addr v s now = (.error .valueError, m) ∧
        m.setQuality addr q s now = (.error .valueError, m) ∧
        m.allPoints s = .error .valueError ∧
        m.changedPoints since s = .error .valueError)) ∧
    (pyUpper s = pyUpper s2 →
        m.readPoint addr s = m.readPoint addr s2 ∧
        m.writePoint addr v s now = m.writePoint addr v s2 now ∧
        m.setQuality addr q s now = m.setQuality addr q s2 now ∧
        m.allPoints s = m.allPoints s2 ∧
        m.changedPoints since s = m.changedPoints since s2) := by
  constructor
  · intro h1 h2 h3 h4
    have hg := getTable_invalid m s h1 h2 h3 h4
    refine ⟨?_, ?_, ?_, ?_, ?_⟩
    · rw [Memory.readPoint, hg]
      rfl
    · rw [Memory.writePoint, if_neg (by simp [h3, h4]), hg]
    · rw [Memory.setQuality, hg]
    · exact hg
    · rw [Memory.changedPoints, hg]
      rfl
  · intro h
    exact ⟨readPoint_congr m addr h, writePoint_congr m addr v now h,
      setQuality_congr m addr q now h, allPoints_congr m h,
      changedPoints_congr m since h⟩

/-- Witness for C9: at a concrete store, the unknown area `"XX"` makes
`read_point` and `write_point` raise `ValueError`, and the lowercase area
`"hr"` behaves exactly like `"HR"`. -/
theorem C9_witness :
    ((Memory.init 1 0 0 0 0 0).readPoint 0 "XX" = .error .valueError ∧
     (Memory.init 1 0 0 0 0 0).writePoint 0 1 "XX" 2
       = (.error .valueError, Memory.init 1 0 0 0 0 0) ∧
     (Memory.init 1 0 0 0 0 0).setQuality 0 .BAD "XX" 2
       = (.error .valueError, Memory.init 1 0 0 0 0 0) ∧
     (Memory.init 1 0 0 0 0 0).allPoints "XX" = .error .valueError ∧
     (Memory.init 1 0 0 0 0 0).changedPoints 0 "XX" = .error .valueError) ∧
    ((Memory.init 1 0 0 0 0 0).readPoint 0 "hr"
       = (Memory.init 1 0 0 0 0 0).readPoint 0 "HR" ∧
     (Memory.init 1 0 0 0 0 0).writePoint 0 1 "hr" 2
       = (Memory.init 1 0 0 0 0 0).writePoint 0 1 "HR" 2 ∧
     (Memory.init 1 0 0 0 0 0).setQuality 0 .BAD "hr" 2
       = (Memory.init 1 0 0 0 0 0).setQuality 0 .BAD "HR" 2 ∧
     (Memory.init 1 0 0 0 0 0).allPoints "hr"
       = (Memory.init 1 0 0 0 0 0).allPoints "HR" ∧
     (Memory.init 1 0 0 0 0 0).changedPoints 0 "hr"
       = (Memory.init 1 0 0 0 0 0).changedPoints 0 "HR") :=
  ⟨(C9_invalid_area_value_error_and_case_insensitivity
      (Memory.init 1 0 0 0 0 0) "XX" "XX" 0 1 .BAD 2 0).1
      (by decide) (by decide) (by decide) (by decide),
   (C9_invalid_area_value_error_and_case_insensitivity
      (Memory.init 1 0 0 0 0 0) "hr" "HR" 0 1 .BAD 2 0).2 (by decide)⟩

/-- Claim C5 is false on the code: `Memory.read_point` does not return a
snapshot copy — it returns the stored point object itself. At a one-register
store, `read_point(0, "HR")` yields the reference of the stored point, and a
caller-side mutation of that very object (`point["value"] = 5`) changes what
the store subsequently holds at address 0 from value 0 to value 5. -/
theorem C5_counterexample_read_returns_alias :
    HeapMemory.readPointRef (HeapMemory.init 1 0 0 0 0 0) 0 "HR" = .ok (some 0) ∧
    HeapMemory.storedPoint (HeapMemory.init 1 0 0 0 0 0) 0 "HR"
      = .ok (some ⟨0, .UNKNOWN, 0⟩) ∧
    HeapMemory.storedPoint ((HeapMemory.init 1 0 0 0 0 0).setValueViaRef 0 5) 0 "HR"
      = .ok (some ⟨5, .UNKNOWN, 0⟩) := by
  refine ⟨by decide, by decide, by decide⟩

/-- Claim C5 (amended): `read_point` returns the stored point object itself
(an alias, not a copy), and `all_points` returns a shallow copy — a fresh
dict holding the very same point objects. Hence mutating the returned map's
structure does not affect the store (the copy is a distinct, value-equal
dict), but mutating a returned point is visible in the store: after a
caller-side `point["value"] = v` on the object `read_point` returned, the
store's point at that address carries `v`. -/
theorem C5_amended_alias_semantics (hm : HeapMemory) (area : String)
    (t : List (Int × Ref)) (addr : Int) (r : Ref) (v : Int)
    (ht : hm.getRefTable area = .ok t) (hr : rlookup t addr = some r) :
    hm.readPointRef addr area = .ok (some r) ∧
    hm.allPointsRefs area = .ok t ∧
    (hm.setValueViaRef r v).storedPoint addr area
      = .ok (some { hm.heap r with value := v }) := by
  have hTables : (hm.setValueViaRef r v).getRefTable area = hm.getRefTable area := rfl
  refine ⟨?_, ?_, ?_⟩
  · rw [HeapMemory.readPointRef, ht]
    show Except.ok (rlookup t addr) = _
    rw [hr]
  · rw [HeapMemory.allPointsRefs, ht]
    rfl
  · rw [HeapMemory.storedPoint, hTables, ht]
    show Except.ok ((rlookup t addr).map (hm.setValueViaRef r v).heap) = _
    rw [hr]
    show Except.ok (some (if r = r then { hm.heap r with value := v } else hm.heap r)) = _
    rw [if_pos rfl]

/-- Witness for C5 (amended) at a concrete one-register store. -/
theorem C5_amended_witness :
    HeapMemory.readPointRef (HeapMemory.init 1 0 0 0 0 0) 0 "HR" = .ok (some 0) ∧
    HeapMemory.allPointsRefs (HeapMemory.init 1 0 0 0 0 0) "HR"
      = .ok ((HeapMemory.init 1 0 0 0 0 0).holdingRefs) ∧
    ((HeapMemory.init 1 0 0 0 0 0).setValueViaRef 0 9).storedPoint 0 "HR"
      = .ok (some { (HeapMemory.init 1 0 0 0 0 0).heap 0 with value := 9 }) :=
  C5_amended_alias_semantics (HeapMemory.init 1 0 0 0 0 0) "HR"
    ((HeapMemory.init 1 0 0 0 0 0).holdingRefs) 0 0 9 (by decide) (by decide)

/-- Claim C6: whenever `start_driver` observes a startup error from the
engine, or the engine is still not running when the 3-second readiness poll
expires, it increments the `errors` counter by exactly one, attempts an engine
shutdown, drops the engine reference (`server = None`) and returns false; the
`starts` counter is not incremented on either path. (`hs`: the call got past
the already-running guard, i.e. it actually spawned an engine and polled.) -/
theorem C6_start_failure_increments_errors_drops_engine (m : DriverManager)
    (cfg : StartConfig) (outcome : StartOutcome) (now t0 : Nat)
    (hs : ¬ m.server = some true)
    (ho : outcome = .startupError ∨ outcome = .timedOut) :
    (startDriver m cfg outcome now t0).1 = false ∧
    (startDriver m cfg outcome now t0).2.1.stats.errors = m.stats.errors + 1 ∧
    (startDriver m cfg outcome now t0).2.1.stats.starts = m.stats.starts ∧
    (startDriver m cfg outcome now t0).2.1.server = none ∧
    (startDriver m cfg outcome now t0).2.2 = [.engineShutdown] := by
  rw [startDriver, if_neg hs]
  rcases ho with ho | ho <;> rw [ho] <;> exact ⟨rfl, rfl, rfl, rfl, rfl⟩

/-- Witness for C6: a fresh manager whose engine reports a startup error. -/
theorem C6_witness :
    (startDriver DriverManager.initial ⟨1, 0, 0, 0, 0, 10, true, 5⟩ .startupError 4 0).1 = false ∧
    (startDriver DriverManager.initial ⟨1, 0, 0, 0, 0, 10, true, 5⟩ .startupError 4 0).2.1.stats.errors
      = DriverManager.initial.stats.errors + 1 ∧
    (startDriver DriverManager.initial ⟨1, 0, 0, 0, 0, 10, true, 5⟩ .startupError 4 0).2.1.stats.starts
      = DriverManager.initial.stats.starts ∧
    (startDriver DriverManager.initial ⟨1, 0, 0, 0, 0, 10, true, 5⟩ .startupError 4 0).2.1.server
      = none ∧
    (startDriver DriverManager.initial ⟨1, 0, 0, 0, 0, 10, true, 5⟩ .startupError 4 0).2.2
      = [.engineShutdown] :=
  C6_start_failure_increments_errors_drops_engine DriverManager.initial
    ⟨1, 0, 0, 0, 0, 10, true, 5⟩ .startupError 4 0 (by decide) (Or.inl rfl)

/-- Claim C7: calling `start_driver` while the engine is already running
returns false and leaves the manager's state exactly unchanged (engine and
point store kept, engine still running, no counter moves, no engine
shutdown); consequently, after a successful start, a second start returns
false and leaves the post-success state unchanged, with `starts` incremented
exactly once across the two calls. -/
theorem C7_second_start_rejected_state_unchanged (m : DriverManager)
    (cfg cfg2 : StartConfig) (o o2 : StartOutcome) (now t0 now2 t02 : Nat) :
    (m.server = some true → startDriver m cfg o now t0 = (false, m, [])) ∧
    (¬ m.server = some true →
      (startDriver m cfg .ok now t0).1 = true ∧
      (startDriver m cfg .ok now t0).2.1.stats.starts = m.stats.starts + 1 ∧
      (startDriver m cfg .ok now t0).2.1.server = some true ∧
      startDriver (startDriver m cfg .ok now t0).2.1 cfg2 o2 now2 t02
        = (false, (startDriver m cfg .ok now t0).2.1, [])) := by
  have hrun : ∀ (mm : DriverManager), mm.server = some true →
      ∀ (c : StartConfig) (o' : StartOutcome) (n t : Nat),
      startDriver mm c o' n t = (false, mm, []) := by
    intro mm hmm c o' n t
    rw [startDriver, if_pos hmm]
  constructor
  · intro hm
    exact hrun m hm cfg o now t0
  · intro hm
    have hok : startDriver m cfg .ok now t0
        = (true,
            startSuccess
              { m with
                  memory := some (Memory.init cfg.hrCount cfg.coCount
                    cfg.diCount cfg.irCount cfg.defaultValue t0),
                  manualStop := false } cfg now,
            []) := by
      rw [startDriver, if_neg hm]
    rw [hok]
    exact ⟨rfl, startSuccess_starts _ cfg now, startSuccess_server _ cfg now,
      hrun _ (startSuccess_server _ cfg now) cfg2 o2 now2 t02⟩

/-- Witness for C7: a fresh manager; the first start succeeds, the second
returns false with `starts` incremented exactly once. -/
theorem C7_witness :
    (startDriver DriverManager.initial ⟨1, 0, 0, 0, 0, 10, true, 5⟩ .ok 4 0).1 = true ∧
    (startDriver DriverManager.initial ⟨1, 0, 0, 0, 0, 10, true, 5⟩ .ok 4 0).2.1.stats.starts
      = DriverManager.initial.stats.starts + 1 ∧
    (startDriver DriverManager.initial ⟨1, 0, 0, 0, 0, 10, true, 5⟩ .ok 4 0).2.1.server
      = some true ∧
    startDriver (startDriver DriverManager.initial ⟨1, 0, 0, 0, 0, 10, true, 5⟩ .ok 4 0).2.1
        ⟨1, 0, 0, 0, 0, 10, true, 5⟩ .ok 9 8
      = (false, (startDriver DriverManager.initial ⟨1, 0, 0, 0, 0, 10, true, 5⟩ .ok 4 0).2.1, []) :=
  (C7_second_start_rejected_state_unchanged DriverManager.initial
    ⟨1, 0, 0, 0, 0, 10, true, 5⟩ ⟨1, 0, 0, 0, 0, 10, true, 5⟩ .ok .ok 4 0 9 8).2
    (by decide)

/-- Claim C8: in any watchdog iteration that observes the engine not running
and no manual stop, with `max_retries > 0` and the retry count already at the
ceiling, the loop disarms itself and exits without issuing a restart: the
whole remaining run produces the single restart flag `false` (no
`restart_driver` call, in this or any later iteration, whatever the rest of
the observation trace would have been) and ends with the watchdog inactive. -/
theorem C8_watchdog_ceiling_disarms_no_restart (maxRetries rc : Nat)
    (obs : WatchdogObs) (rest : List WatchdogObs)
    (hmr : 0 < maxRetries) (hrc : maxRetries ≤ rc)
    (hdr : obs.driverRunning = false) (hms : obs.manualStop = false) :
    watchdogRun maxRetries rc (obs :: rest) = ([false], false) := by
  rw [watchdogRun, watchdogBody, hdr, hms]
  rw [if_neg (by simp), if_neg (by simp), if_pos ⟨hmr, hrc⟩]

/-- Witness for C8: `max_retries = 3`, the retry count already 3, engine down,
no manual stop. -/
theorem C8_witness :
    watchdogRun 3 3 (⟨false, false⟩ :: [⟨false, false⟩, ⟨false, false⟩])
      = ([false], false) :=
  C8_watchdog_ceiling_disarms_no_restart 3 3 ⟨false, false⟩
    [⟨false, false⟩, ⟨false, false⟩] (by decide) (by decide) rfl rfl

/-- Claim C10: with every area count 0, the engine still builds one-element
data blocks `[0]` at base address 1 (the `or [0]` padding), so one
register/bit is addressable per area although the point store holds no point
there; a write to the padded address (here address 0, through the slave
context with function code 1 for a coil and 3 for a register) leaves the
point store unchanged — the mirror `write_point` fails on the empty table and
`all_points` stays empty — while the engine's own block is still updated with
the (coil-normalised) value. -/
theorem C10_zero_count_area_padded_block_store_unchanged (dv v : Int)
    (t0 now : Nat) :
    (EngineState.init (Memory.init 0 0 0 0 dv t0)).hrBlock = ⟨1, [0]⟩ ∧
    (EngineState.init (Memory.init 0 0 0 0 dv t0)).coBlock = ⟨1, [0]⟩ ∧
    (EngineState.init (Memory.init 0 0 0 0 dv t0)).diBlock = ⟨1, [0]⟩ ∧
    (EngineState.init (Memory.init 0 0 0 0 dv t0)).irBlock = ⟨1, [0]⟩ ∧
    (Memory.init 0 0 0 0 dv t0).allPoints "CO" = .ok [] ∧
    (contextSetValues (EngineState.init (Memory.init 0 0 0 0 dv t0)) 1 0 [v] now).memory
      = Memory.init 0 0 0 0 dv t0 ∧
    (contextSetValues (EngineState.init (Memory.init 0 0 0 0 dv t0)) 1 0 [v] now).coBlock.values
      = [pyBool01 v] ∧
    (contextSetValues (EngineState.init (Memory.init 0 0 0 0 dv t0)) 3 0 [v] now).memory
      = Memory.init 0 0 0 0 dv t0 ∧
    (contextSetValues (EngineState.init (Memory.init 0 0 0 0 dv t0)) 3 0 [v] now).hrBlock.values
      = [v] := by
  exact ⟨rfl, rfl, rfl, rfl, rfl, rfl, rfl, rfl, rfl⟩

end ModbusDriver
